import Mathlib

/-!
Shallow embedding of `scripts/generate_source.py`, the code-generation
orchestration and artifact-synchronization pipeline of this repository.

Directories are modelled as association lists from filename to file
contents (a `String`, compared byte-for-byte by string equality, which is
what `filecmp.cmp(..., shallow=False)` decides).  The verify scan, the
incremental copy loop, the generator-table lookup of `RunGenerators`, the
extension filter and the API-scope computation are all translated
directly from the source; line numbers in the doc comments refer to
`scripts/generate_source.py`.
-/

namespace GenerateSource

/-! ### Directories as finite maps -/

/-- A directory: a finite map from filename to file contents. -/
abbrev Dir := List (String × String)

/-- The set of filenames of a directory (`os.listdir`). -/
def dirNames (d : Dir) : List String := d.map Prod.fst

/-- Contents of the file `name` in directory `d`, if present. -/
def lookupFile (d : Dir) (name : String) : Option String :=
  match d with
  | [] => none
  | (k, v) :: rest => if k = name then some v else lookupFile rest name

/-- Lines 160-162: files to exclude from the `--verify` check. -/
def verify_exclude : List String := [".clang-format"]

/-! ### String ordering and sorting (Python `sorted` on filenames) -/

/-- Lexicographic comparison of character lists by code point, the order
Python `sorted` uses on strings. -/
def charListLe : List Char → List Char → Bool
  | [], _ => true
  | _ :: _, [] => false
  | a :: as, b :: bs =>
    if a.toNat < b.toNat then true
    else if b.toNat < a.toNat then false
    else charListLe as bs

/-- String comparison by code points, as Python compares strings. -/
def strLe (a b : String) : Bool := charListLe a.data b.data

/-- Insert a string into a sorted list of strings. -/
def insertSorted (n : String) : List String → List String
  | [] => [n]
  | m :: rest => if strLe n m then n :: m :: rest else m :: insertSorted n rest

/-- Insertion sort on strings: the model of Python `sorted`. -/
def sortStrings : List String → List String
  | [] => []
  | n :: rest => insertSorted n (sortStrings rest)

/-! ### Verify mode (lines 217-241) -/

/-- Outcome of the verify scan: the three failure reports of lines
224-238 and the success of line 241. -/
inductive VerifyOutcome
  | missingRepoFile (name : String)
  | missingGenerator (name : String)
  | contentMismatch (name : String)
  | success
deriving DecidableEq, Repr

/-- Lines 224-230: the per-filename check of the verify loop.  `temp` is
the working (scratch) directory, `repo` the repository directory.  A
name absent from the repo is a missing repo file; a name absent from the
working directory is a missing generator; differing contents are a
content mismatch. -/
def checkName (temp repo : Dir) (name : String) : Option VerifyOutcome :=
  if (lookupFile repo name).isNone then some (.missingRepoFile name)
  else if (lookupFile temp name).isNone then some (.missingGenerator name)
  else if lookupFile temp name ≠ lookupFile repo name then some (.contentMismatch name)
  else none

/-- Lines 221-238: scan the given filenames in order; the first failing
name decides the outcome (the loop returns immediately), and a scan with
no failure is a success. -/
def verifyScan (temp repo : Dir) : List String → VerifyOutcome
  | [] => .success
  | n :: rest =>
    match checkName temp repo n with
    | some o => o
    | none => verifyScan temp repo rest

/-- Line 221: `sorted((temp_files | repo_files) - set(verify_exclude))`,
the sorted union of the two filename sets minus the exclusions. -/
def scanNames (temp repo : Dir) : List String :=
  sortStrings (((dirNames temp ++ dirNames repo).dedup).filter
    (fun n => decide (n ∉ verify_exclude)))

/-- The whole verify pass of lines 217-241. -/
def runVerify (temp repo : Dir) : VerifyOutcome :=
  verifyScan temp repo (scanNames temp repo)

/-- Exit codes of the verify pass: lines 226, 229, 238 and (through
line 253) 0 on success. -/
def verifyExitCode : VerifyOutcome → Nat
  | .missingRepoFile _ => 2
  | .missingGenerator _ => 3
  | .contentMismatch _ => 4
  | .success => 0

/-- The diagnostic line printed for each outcome (lines 225, 228, 231
and 241). -/
def verifyMessage : VerifyOutcome → String
  | .missingRepoFile name => "ERROR: Missing repo file " ++ name
  | .missingGenerator name => "ERROR: Missing generator for " ++ name
  | .contentMismatch name => "ERROR: Repo files do not match generator output for " ++ name
  | .success => "SUCCESS: Repo files match generator output"

/-- Line 236: the `fromfile` header handed to `difflib.unified_diff`
for a content mismatch (the working side is the "from" side). -/
def diffFromFile (name : String) : String := "temp/" ++ name

/-- Line 237: the `tofile` header handed to `difflib.unified_diff`
(the repository side is the "to" side). -/
def diffToFile (name : String) : String := "repo/" ++ name

/-! ### Incremental mode (lines 243-251) -/

/-- Write `content` under `name` in the directory, replacing an existing
binding (the model of `shutil.copyfile` into the repo). -/
def setFile (d : Dir) (name content : String) : Dir :=
  match d with
  | [] => [(name, content)]
  | (k, v) :: rest =>
    if k = name then (k, content) :: rest else (k, v) :: setFile rest name content

/-- Lines 246-251: one iteration of the incremental loop.  The state is
the repository directory together with the log of updated filenames; the
working file is copied exactly when the repository file does not exist
or differs byte-for-byte. -/
def incrementalStep (st : Dir × List String) (f : String × String) : Dir × List String :=
  if lookupFile st.1 f.1 = some f.2 then st
  else (setFile st.1 f.1 f.2, st.2 ++ [f.1])

/-- Lines 245-251: the incremental loop over every file of the working
(scratch) directory, returning the updated repository directory and the
list of filenames logged as `update`d. -/
def incrementalRun (temp repo : Dir) : Dir × List String :=
  temp.foldl incrementalStep (repo, [])

/-- Line 253: a completed incremental run falls through to `return 0`. -/
def incrementalExitCode : Nat := 0

/-! ### The generator table and RunGenerators (lines 39-151) -/

/-- Lines 69-102: the fixed generator table, in source order; each
target name is paired with its `genCombined` flag. -/
def generators : List (String × Bool) :=
  [ ("vk_safe_struct.h", true),
    ("vk_safe_struct_utils.cpp", true),
    ("vk_safe_struct_core.cpp", true),
    ("vk_safe_struct_khr.cpp", true),
    ("vk_safe_struct_ext.cpp", true),
    ("vk_safe_struct_vendor.cpp", true),
    ("vk_extension_helper.h", true),
    ("vk_api_version.h", true) ]

/-- The keys of the generator table, in table order. -/
def generatorNames : List String := generators.map Prod.fst

/-- Line 104: the entries of the target filter that are not keys of the
generator table (an absent filter, like Python's falsy `None` or empty
list, contributes nothing). -/
def unknownTargets (targetFilter : Option (List String)) : List String :=
  match targetFilter with
  | none => []
  | some tf => tf.filter (fun x => decide (x ∉ generatorNames))

/-- Line 106: the error message printed for unknown targets. -/
def unknownTargetsMessage (unknown : List String) : String :=
  "ERROR: No generator options for unknown target(s): " ++ String.intercalate ", " unknown

/-- Line 110: the selected targets, in table order; a `None` or empty
filter (both falsy in Python) selects every target. -/
def selectedTargets (targetFilter : Option (List String)) : List String :=
  generatorNames.filter fun x =>
    match targetFilter with
    | none => true
    | some tf => tf.isEmpty || tf.contains x

/-- Lines 104-147 of `RunGenerators`, at the level of target selection:
an unknown filter entry makes it print the error message and return 1
(the `.error` case, carrying the message) before the generation loop of
line 112 starts, so no target is generated; otherwise the loop generates
exactly the selected targets, in table order (the `.ok` case). -/
def RunGenerators (targetFilter : Option (List String)) : Except String (List String) :=
  let unknown := unknownTargets targetFilter
  if unknown.isEmpty then .ok (selectedTargets targetFilter)
  else .error (unknownTargetsMessage unknown)

/-- Line 107: the status value `RunGenerators` returns on an unknown
target (1), against 0 for a completed run. -/
def runGeneratorsStatus (targetFilter : Option (List String)) : Nat :=
  match RunGenerators targetFilter with
  | .error _ => 1
  | .ok _ => 0

/-- Lines 213-253 of `main` for direct mode (a `--target` filter given,
so neither `--verify` nor `--incremental` is set): the return value of
`RunGenerators` on line 214 is discarded, no post-generation branch
runs, and `main` falls through to `return 0`. -/
def mainDirectExit (targetFilter : Option (List String)) : Nat :=
  let _ := RunGenerators targetFilter
  0

/-! ### The extension filter (line 141) -/

/-- An `extension` element of the registry XML: its name and its
optional `supported` attribute. -/
structure Extension where
  name : String
  supported : Option String
deriving DecidableEq, Repr

/-- Python `sup.split(',')` on character lists: split at every comma,
keeping empty pieces. -/
def splitCommaChars : List Char → List (List Char)
  | [] => [[]]
  | c :: rest =>
    match splitCommaChars rest with
    | [] => [[c]]
    | g :: gs => if c = ',' then [] :: g :: gs else (c :: g) :: gs

/-- Python `sup.split(',')`. -/
def commaSplit (s : String) : List String :=
  (splitCommaChars s.data).map String.mk

/-- Line 141, the removal condition read positively: an extension is
kept when its `supported` attribute is absent, or when some name of
`apiList` occurs in the comma-split of the attribute.  (The source
removes `e` when `(sup := e.get('supported')) is not None and
all(api not in sup.split(',') for api in apiList)`.) -/
def keepExtension (apiList : List String) (e : Extension) : Bool :=
  match e.supported with
  | none => true
  | some sup => apiList.any fun api => (commaSplit sup).contains api

/-- Line 141: remove from the tree every extension that no name of
`apiList` supports. -/
def filterExtensions (apiList : List String) (exts : List Extension) : List Extension :=
  exts.filter (keepExtension apiList)

/-! ### API scope and merged-API names (lines 124-129) -/

/-- Lines 124-127: the API list starts as `[api]` and the canonical base
API `vulkan` is appended when `api != 'vulkan'` and the target is
combinable. -/
def computeApiList (api : String) (genCombined : Bool) : List String :=
  if api != "vulkan" && genCombined then [api] ++ ["vulkan"] else [api]

/-- Lines 125-129: `SetMergedApiNames('vulkan')` in the combinable
non-base case, `SetMergedApiNames(None)` otherwise. -/
def computeMergedApiNames (api : String) (genCombined : Bool) : Option String :=
  if api != "vulkan" && genCombined then some "vulkan" else none

/-- The per-target generation state assembled by the loop body of lines
112-147: the API scope list, the merged-API names passed to the
generation context, and the extension-filtered registry. -/
structure GenTargetResult where
  apiList : List String
  mergedApiNames : Option String
  filteredExtensions : List Extension
deriving Repr

/-- Lines 112-147 for one target: compute the API scope, set the
merged-API names, and filter the freshly parsed registry extensions with
the API scope list. -/
def generateTarget (api : String) (genCombined : Bool) (exts : List Extension) :
    GenTargetResult :=
  { apiList := computeApiList api genCombined,
    mergedApiNames := computeMergedApiNames api genCombined,
    filteredExtensions := filterExtensions (computeApiList api genCombined) exts }

/-- Modelled from the spec: `scripts/generators/base_generator.py`
(`SetMergedApiNames`) is repository code not present under `src/`.  Per
the spec, the generation context carries a merged-API set that is the
primary API name together with the merged API names (a comma-separated
string), or the primary name alone when the merged names are cleared. -/
def mergedApiSet (api : String) (mergedApiNames : Option String) : List String :=
  match mergedApiNames with
  | none => [api]
  | some names => api :: commaSplit names

/-! ### The GitHub-Actions verify skip (lines 178-184) -/

/-- Lines 178-184: under GitHub Actions with `--verify`, when the
detected clang-format major version is below 14 `main` returns 0
immediately, skipping the verify check; otherwise this early return does
not fire. -/
def ghaVerifySkip (isGHA : Bool) (verify : Bool) (clangFormatMajor : Nat) : Option Nat :=
  if isGHA && verify && decide (clangFormatMajor < 14) then some 0 else none

/-! ### Helper lemmas about directories and the verify scan -/

theorem dirNames_cons (k v : String) (rest : Dir) :
    dirNames ((k, v) :: rest) = k :: dirNames rest := rfl

theorem lookupFile_isSome_iff (d : Dir) (n : String) :
    (lookupFile d n).isSome ↔ n ∈ dirNames d := by
  induction d with
  | nil => simp [lookupFile, dirNames]
  | cons p rest ih =>
    obtain ⟨k, v⟩ := p
    by_cases h : k = n
    · subst h; simp [lookupFile, dirNames_cons]
    · have hne : ¬ n = k := fun hn => h hn.symm
      simp [lookupFile, dirNames_cons, h, hne, ih]

theorem lookupFile_eq_none_of_not_mem {d : Dir} {n : String}
    (h : n ∉ dirNames d) : lookupFile d n = none := by
  have := (lookupFile_isSome_iff d n).not.mpr h
  cases hd : lookupFile d n with
  | none => rfl
  | some c => exact absurd (by simp [hd]) this

theorem mem_insertSorted {x n : String} {l : List String} :
    x ∈ insertSorted n l ↔ x = n ∨ x ∈ l := by
  induction l with
  | nil => simp [insertSorted]
  | cons m rest ih =>
    by_cases h : strLe n m
    · simp [insertSorted, h]
    · simp [insertSorted, h, ih]; tauto

theorem mem_sortStrings {x : String} {l : List String} :
    x ∈ sortStrings l ↔ x ∈ l := by
  induction l with
  | nil => simp [sortStrings]
  | cons n rest ih => simp [sortStrings, mem_insertSorted, ih]

theorem mem_scanNames {temp repo : Dir} {n : String} :
    n ∈ scanNames temp repo ↔
      (n ∈ dirNames temp ∨ n ∈ dirNames repo) ∧ n ∉ verify_exclude := by
  simp [scanNames, mem_sortStrings, List.mem_filter, List.mem_dedup, List.mem_append]

theorem verifyScan_all_pass {temp repo : Dir} {l : List String}
    (h : ∀ m ∈ l, checkName temp repo m = none) :
    verifyScan temp repo l = .success := by
  induction l with
  | nil => rfl
  | cons n rest ih =>
    have hn := h n (by simp)
    simp only [verifyScan, hn]
    exact ih fun m hm => h m (by simp [hm])

theorem verifyScan_unique_failure {temp repo : Dir} {l : List String}
    {n : String} {o : VerifyOutcome} (hmem : n ∈ l)
    (hpass : ∀ m ∈ l, m ≠ n → checkName temp repo m = none)
    (hfail : checkName temp repo n = some o) :
    verifyScan temp repo l = o := by
  induction l with
  | nil => cases hmem
  | cons m rest ih =>
    by_cases hmn : m = n
    · subst hmn; simp only [verifyScan, hfail]
    · have hm := hpass m (by simp) hmn
      simp only [verifyScan, hm]
      have hmem' : n ∈ rest := by
        rcases List.mem_cons.mp hmem with h | h
        · exact absurd h.symm hmn
        · exact h
      exact ih hmem' fun m' hm' => hpass m' (by simp [hm'])

theorem verifyScan_first_failure {temp repo : Dir} {pre rest : List String}
    {n : String} {o : VerifyOutcome}
    (hpass : ∀ m ∈ pre, checkName temp repo m = none)
    (hfail : checkName temp repo n = some o) :
    verifyScan temp repo (pre ++ n :: rest) = o := by
  induction pre with
  | nil => simp only [List.nil_append, verifyScan, hfail]
  | cons m pre' ih =>
    have hm := hpass m (by simp)
    simp only [List.cons_append, verifyScan, hm]
    exact ih fun m' hm' => hpass m' (by simp [hm'])

theorem checkName_eq_none_of_lookup_eq {temp repo : Dir} {n : String}
    (hmem : n ∈ dirNames temp ∨ n ∈ dirNames repo)
    (heq : lookupFile temp n = lookupFile repo n) :
    checkName temp repo n = none := by
  have hsome : (lookupFile repo n).isSome := by
    rcases hmem with h | h
    · rw [← heq]; exact (lookupFile_isSome_iff temp n).mpr h
    · exact (lookupFile_isSome_iff repo n).mpr h
  obtain ⟨c, hc⟩ := Option.isSome_iff_exists.mp hsome
  simp [checkName, hc, heq]

/-! ### Helper lemmas about the incremental loop -/

theorem lookupFile_setFile_self (d : Dir) (n c : String) :
    lookupFile (setFile d n c) n = some c := by
  induction d with
  | nil => simp [setFile, lookupFile]
  | cons p rest ih =>
    obtain ⟨k, v⟩ := p
    by_cases h : k = n
    · subst h; simp [setFile, lookupFile]
    · simp [setFile, lookupFile, h, ih]

theorem lookupFile_setFile_ne (d : Dir) {n m : String} (c : String) (h : m ≠ n) :
    lookupFile (setFile d n c) m = lookupFile d m := by
  have hnm : ¬ n = m := fun he => h he.symm
  induction d with
  | nil => simp [setFile, lookupFile, hnm]
  | cons p rest ih =>
    obtain ⟨k, v⟩ := p
    by_cases hk : k = n
    · subst hk; simp [setFile, lookupFile, hnm]
    · by_cases hm : k = m
      · subst hm; simp [setFile, lookupFile, hk]
      · simp [setFile, lookupFile, hk, hm, ih]

theorem incrementalStep_lookup_self (st : Dir × List String) (f : String × String) :
    lookupFile (incrementalStep st f).1 f.1 = some f.2 := by
  unfold incrementalStep
  by_cases h : lookupFile st.1 f.1 = some f.2
  · simp [h]
  · simp [h, lookupFile_setFile_self]

theorem incrementalStep_lookup_ne (st : Dir × List String) (f : String × String)
    {m : String} (h : m ≠ f.1) :
    lookupFile (incrementalStep st f).1 m = lookupFile st.1 m := by
  unfold incrementalStep
  by_cases hc : lookupFile st.1 f.1 = some f.2
  · simp [hc]
  · simp [hc, lookupFile_setFile_ne _ _ h]

theorem incrementalStep_log_mem (st : Dir × List String) (f : String × String)
    {m : String} :
    m ∈ (incrementalStep st f).2 ↔
      m ∈ st.2 ∨ (m = f.1 ∧ lookupFile st.1 f.1 ≠ some f.2) := by
  unfold incrementalStep
  by_cases hc : lookupFile st.1 f.1 = some f.2
  · simp [hc]
  · simp [hc]

theorem incrementalFold_lookup_not_mem (temp : Dir) (st : Dir × List String)
    {m : String} (hm : m ∉ dirNames temp) :
    lookupFile (temp.foldl incrementalStep st).1 m = lookupFile st.1 m := by
  induction temp generalizing st with
  | nil => rfl
  | cons f rest ih =>
    obtain ⟨k, v⟩ := f
    rw [dirNames_cons] at hm
    have h1 : m ≠ k := fun h => hm (by simp [h])
    have h2 : m ∉ dirNames rest := fun h => hm (by simp [h])
    rw [List.foldl_cons, ih _ h2, incrementalStep_lookup_ne _ _ h1]

theorem incrementalFold_lookup_mem (temp : Dir) (st : Dir × List String)
    {n c : String} (hnd : (dirNames temp).Nodup)
    (h : lookupFile temp n = some c) :
    lookupFile (temp.foldl incrementalStep st).1 n = some c := by
  induction temp generalizing st with
  | nil => simp [lookupFile] at h
  | cons f rest ih =>
    obtain ⟨k, v⟩ := f
    rw [dirNames_cons] at hnd
    obtain ⟨hknotin, hndrest⟩ := List.nodup_cons.mp hnd
    by_cases hk : k = n
    · subst hk
      have hc : v = c := by simpa [lookupFile] using h
      subst hc
      rw [List.foldl_cons, incrementalFold_lookup_not_mem rest _ hknotin]
      exact incrementalStep_lookup_self st (k, v)
    · have h' : lookupFile rest n = some c := by simpa [lookupFile, hk] using h
      rw [List.foldl_cons]
      exact ih _ hndrest h'

theorem incrementalFold_log_mem (temp : Dir) (st : Dir × List String) {m : String}
    (hnd : (dirNames temp).Nodup) :
    m ∈ (temp.foldl incrementalStep st).2 ↔
      m ∈ st.2 ∨ ∃ c, lookupFile temp m = some c ∧ lookupFile st.1 m ≠ some c := by
  induction temp generalizing st with
  | nil => simp [lookupFile]
  | cons f rest ih =>
    obtain ⟨k, v⟩ := f
    rw [dirNames_cons] at hnd
    obtain ⟨hknotin, hndrest⟩ := List.nodup_cons.mp hnd
    rw [List.foldl_cons, ih _ hndrest]
    by_cases hk : m = k
    · subst hk
      have hrest : lookupFile rest m = none := lookupFile_eq_none_of_not_mem hknotin
      rw [incrementalStep_log_mem]
      constructor
      · rintro ((h | ⟨-, h⟩) | ⟨c, hc, -⟩)
        · exact Or.inl h
        · exact Or.inr ⟨v, by simp [lookupFile], h⟩
        · simp [hrest] at hc
      · rintro (h | ⟨c, hc, hne⟩)
        · exact Or.inl (Or.inl h)
        · have hcv : v = c := by simpa [lookupFile] using hc
          subst hcv
          exact Or.inl (Or.inr ⟨rfl, hne⟩)
    · rw [incrementalStep_log_mem, incrementalStep_lookup_ne _ _ hk]
      have hkm : ¬ k = m := fun he => hk he.symm
      have hlk : lookupFile ((k, v) :: rest) m = lookupFile rest m := by
        simp [lookupFile, hkm]
      rw [hlk]
      tauto

/-! ### Helper lemma for the extension filter -/

theorem keepExtension_eq_true_iff (apiList : List String) (e : Extension) :
    keepExtension apiList e = true ↔
      e.supported = none ∨
      ∃ sup, e.supported = some sup ∧ ∃ api ∈ apiList, api ∈ commaSplit sup := by
  cases hs : e.supported with
  | none => simp [keepExtension, hs]
  | some sup => simp [keepExtension, hs, List.any_eq_true]

/-! ### Claim theorems -/

/-- C5: the extension filter retains an extension element exactly when
its `supported` attribute is absent or its comma-separated API-name set
meets the given API list; in particular `supported="a,b"` is retained
by the list `["a"]`, removed by `["c"]`, and an extension with no
`supported` attribute is retained under every filter list. -/
theorem c5_extension_filter (apiList : List String) (exts : List Extension)
    (e : Extension) :
    (e ∈ filterExtensions apiList exts ↔
      e ∈ exts ∧ (e.supported = none ∨
        ∃ sup, e.supported = some sup ∧ ∃ api ∈ apiList, api ∈ commaSplit sup))
  ∧ (∀ n, filterExtensions ["a"] [⟨n, some "a,b"⟩] = [⟨n, some "a,b"⟩])
  ∧ (∀ n, filterExtensions ["c"] [⟨n, some "a,b"⟩] = [])
  ∧ (∀ l n, filterExtensions l [⟨n, none⟩] = [⟨n, none⟩]) := by
  refine ⟨?_, fun n => rfl, fun n => rfl, fun l n => ?_⟩
  · rw [filterExtensions, List.mem_filter, keepExtension_eq_true_iff]
  · cases l with
    | nil => rfl
    | cons a as => rfl

/-- C1: in verify mode, with the two trees otherwise identical, a file
`r` outside the exclusion set present in the repository directory but
absent from the working (scratch) directory makes the run report a
missing generator for `r` and exit with code 3, and a file present in
the working directory but absent from the repository directory makes
the run report a missing repo file and exit with code 2, each printing
a message naming `r`. -/
theorem c1_verify_extra_file_exit_codes (temp repo : Dir) (r : String) :
    (r ∉ verify_exclude → lookupFile temp r = none →
      (lookupFile repo r).isSome →
      (∀ n, n ≠ r → lookupFile temp n = lookupFile repo n) →
      runVerify temp repo = .missingGenerator r ∧
      verifyExitCode (runVerify temp repo) = 3 ∧
      verifyMessage (runVerify temp repo) = "ERROR: Missing generator for " ++ r)
  ∧ (r ∉ verify_exclude → lookupFile repo r = none →
      (lookupFile temp r).isSome →
      (∀ n, n ≠ r → lookupFile temp n = lookupFile repo n) →
      runVerify temp repo = .missingRepoFile r ∧
      verifyExitCode (runVerify temp repo) = 2 ∧
      verifyMessage (runVerify temp repo) = "ERROR: Missing repo file " ++ r) := by
  constructor
  · intro hexcl htemp hrepo hothers
    obtain ⟨c, hc⟩ := Option.isSome_iff_exists.mp hrepo
    have hcheck : checkName temp repo r = some (.missingGenerator r) := by
      simp [checkName, htemp, hc]
    have hmem : r ∈ scanNames temp repo :=
      mem_scanNames.mpr ⟨Or.inr ((lookupFile_isSome_iff repo r).mp hrepo), hexcl⟩
    have hpass : ∀ m ∈ scanNames temp repo, m ≠ r → checkName temp repo m = none :=
      fun m hm hmr =>
        checkName_eq_none_of_lookup_eq (mem_scanNames.mp hm).1 (hothers m hmr)
    have hrun : runVerify temp repo = .missingGenerator r :=
      verifyScan_unique_failure hmem hpass hcheck
    exact ⟨hrun, by rw [hrun]; rfl, by rw [hrun]; rfl⟩
  · intro hexcl hrepo htemp hothers
    have hcheck : checkName temp repo r = some (.missingRepoFile r) := by
      simp [checkName, hrepo]
    have hmem : r ∈ scanNames temp repo :=
      mem_scanNames.mpr ⟨Or.inl ((lookupFile_isSome_iff temp r).mp htemp), hexcl⟩
    have hpass : ∀ m ∈ scanNames temp repo, m ≠ r → checkName temp repo m = none :=
      fun m hm hmr =>
        checkName_eq_none_of_lookup_eq (mem_scanNames.mp hm).1 (hothers m hmr)
    have hrun : runVerify temp repo = .missingRepoFile r :=
      verifyScan_unique_failure hmem hpass hcheck
    exact ⟨hrun, by rw [hrun]; rfl, by rw [hrun]; rfl⟩

/-- Witness for C1 at concrete directories: the repository tree with
the extra file `b` yields the missing-generator outcome with exit code
3, and the working tree with the extra file `b` yields the
missing-repo-file outcome with exit code 2. -/
theorem c1_verify_extra_file_exit_codes_witness :
    runVerify [("a", "x")] [("a", "x"), ("b", "y")] = .missingGenerator "b" ∧
    verifyExitCode (runVerify [("a", "x")] [("a", "x"), ("b", "y")]) = 3 ∧
    runVerify [("a", "x"), ("b", "y")] [("a", "x")] = .missingRepoFile "b" ∧
    verifyExitCode (runVerify [("a", "x"), ("b", "y")] [("a", "x")]) = 2 := by
  have hothers1 : ∀ n, n ≠ "b" →
      lookupFile [("a", "x")] n = lookupFile [("a", "x"), ("b", "y")] n := by
    intro n hn
    have hb : ¬ ("b" : String) = n := fun he => hn he.symm
    by_cases h : ("a" : String) = n <;> simp [lookupFile, h, hb]
  have hothers2 : ∀ n, n ≠ "b" →
      lookupFile [("a", "x"), ("b", "y")] n = lookupFile [("a", "x")] n := by
    intro n hn
    have hb : ¬ ("b" : String) = n := fun he => hn he.symm
    by_cases h : ("a" : String) = n <;> simp [lookupFile, h, hb]
  have h1 := (c1_verify_extra_file_exit_codes [("a", "x")] [("a", "x"), ("b", "y")] "b").1
    (by decide) (by decide) (by decide) hothers1
  have h2 := (c1_verify_extra_file_exit_codes [("a", "x"), ("b", "y")] [("a", "x")] "b").2
    (by decide) (by decide) (by decide) hothers2
  exact ⟨h1.1, h1.2.1, h2.1, h2.2.1⟩

/-- C2 counterexample: the file `a` is present only in the working
(scratch) directory, yet the scan reports it as a missing repo file
with exit code 2 — not, as the claim states, as a missing generator
with exit code 3; the two labels of the claim are swapped. -/
theorem c2_verify_scan_labels_counterexample :
    runVerify [("a", "x")] [] = .missingRepoFile "a" ∧
    verifyExitCode (runVerify [("a", "x")] []) = 2 ∧
    runVerify [("a", "x")] [] ≠ .missingGenerator "a" ∧
    verifyExitCode (runVerify [("a", "x")] []) ≠ 3 := by decide

/-- C2 (amended): in the verify scan over the sorted union of filenames
minus exclusions, once every earlier name has passed, a name present
only in the working dir is reported as a missing repo file and stops the
run with exit code 2, and a name present only in the repo dir is
reported as a missing generator and stops the run with exit code 3
(whatever names remain after it). -/
theorem c2_verify_scan_labels (temp repo : Dir) (pre rest : List String)
    (n : String) (hdecomp : scanNames temp repo = pre ++ n :: rest)
    (hpre : ∀ m ∈ pre, checkName temp repo m = none) :
    (lookupFile temp n ≠ none → lookupFile repo n = none →
      runVerify temp repo = .missingRepoFile n ∧
      verifyExitCode (runVerify temp repo) = 2 ∧
      verifyMessage (runVerify temp repo) = "ERROR: Missing repo file " ++ n)
  ∧ (lookupFile temp n = none → lookupFile repo n ≠ none →
      runVerify temp repo = .missingGenerator n ∧
      verifyExitCode (runVerify temp repo) = 3 ∧
      verifyMessage (runVerify temp repo) = "ERROR: Missing generator for " ++ n) := by
  constructor
  · intro _ hrepo
    have hcheck : checkName temp repo n = some (.missingRepoFile n) := by
      simp [checkName, hrepo]
    have hrun : runVerify temp repo = .missingRepoFile n := by
      unfold runVerify
      rw [hdecomp]
      exact verifyScan_first_failure hpre hcheck
    exact ⟨hrun, by rw [hrun]; rfl, by rw [hrun]; rfl⟩
  · intro htemp hrepo
    obtain ⟨c, hc⟩ := Option.ne_none_iff_exists'.mp hrepo
    have hcheck : checkName temp repo n = some (.missingGenerator n) := by
      simp [checkName, htemp, hc]
    have hrun : runVerify temp repo = .missingGenerator n := by
      unfold runVerify
      rw [hdecomp]
      exact verifyScan_first_failure hpre hcheck
    exact ⟨hrun, by rw [hrun]; rfl, by rw [hrun]; rfl⟩

/-- Witness for the amended C2 at concrete directories. -/
theorem c2_verify_scan_labels_witness :
    runVerify [("a", "x")] [] = .missingRepoFile "a" ∧
    runVerify [] [("b", "y")] = .missingGenerator "b" := by
  have h1 := (c2_verify_scan_labels [("a", "x")] [] [] [] "a" (by decide)
    (by simp)).1 (by decide) (by decide)
  have h2 := (c2_verify_scan_labels [] [("b", "y")] [] [] "b" (by decide)
    (by simp)).2 (by decide) (by decide)
  exact ⟨h1.1, h2.1⟩

/-- C3: verify mode on two trees identical modulo the exclusion set
succeeds with exit code 0 and prints the success marker; with exactly
one shared non-excluded file differing, it reports a content mismatch
for that file with exit code 4, and both unified-diff headers (working
side as "from", repo side as "to") end in that file's name. -/
theorem c3_verify_identical_and_mismatch (temp repo : Dir) :
    ((∀ n, n ∉ verify_exclude → lookupFile temp n = lookupFile repo n) →
      runVerify temp repo = .success ∧
      verifyExitCode (runVerify temp repo) = 0 ∧
      verifyMessage (runVerify temp repo) = "SUCCESS: Repo files match generator output")
  ∧ (∀ m a b, m ∉ verify_exclude →
      lookupFile temp m = some a → lookupFile repo m = some b → a ≠ b →
      (∀ n, n ≠ m → n ∉ verify_exclude → lookupFile temp n = lookupFile repo n) →
      runVerify temp repo = .contentMismatch m ∧
      verifyExitCode (runVerify temp repo) = 4 ∧
      (∃ s, diffFromFile m = s ++ m) ∧ (∃ s, diffToFile m = s ++ m)) := by
  constructor
  · intro hall
    have hpass : ∀ n ∈ scanNames temp repo, checkName temp repo n = none :=
      fun n hn =>
        checkName_eq_none_of_lookup_eq (mem_scanNames.mp hn).1
          (hall n (mem_scanNames.mp hn).2)
    have hrun : runVerify temp repo = .success := verifyScan_all_pass hpass
    exact ⟨hrun, by rw [hrun]; rfl, by rw [hrun]; rfl⟩
  · intro m a b hexcl ht hr hab hothers
    have hcheck : checkName temp repo m = some (.contentMismatch m) := by
      simp [checkName, ht, hr, hab]
    have hmem : m ∈ scanNames temp repo :=
      mem_scanNames.mpr ⟨Or.inl ((lookupFile_isSome_iff temp m).mp (by simp [ht])), hexcl⟩
    have hpass : ∀ n ∈ scanNames temp repo, n ≠ m → checkName temp repo n = none :=
      fun n hn hnm =>
        checkName_eq_none_of_lookup_eq (mem_scanNames.mp hn).1
          (hothers n hnm (mem_scanNames.mp hn).2)
    have hrun : runVerify temp repo = .contentMismatch m :=
      verifyScan_unique_failure hmem hpass hcheck
    exact ⟨hrun, by rw [hrun]; rfl, ⟨"temp/", rfl⟩, ⟨"repo/", rfl⟩⟩

/-- Witness for C3 at concrete directories: trees differing only in the
excluded `.clang-format` file verify successfully, and a one-byte
content difference in the shared file `a` yields the content-mismatch
outcome with exit code 4. -/
theorem c3_verify_identical_and_mismatch_witness :
    runVerify [("a", "x"), (".clang-format", "p")]
        [("a", "x"), (".clang-format", "q")] = .success ∧
    runVerify [("a", "x")] [("a", "y")] = .contentMismatch "a" ∧
    verifyExitCode (runVerify [("a", "x")] [("a", "y")]) = 4 := by
  have hall : ∀ n, n ∉ verify_exclude →
      lookupFile [("a", "x"), (".clang-format", "p")] n =
        lookupFile [("a", "x"), (".clang-format", "q")] n := by
    intro n hn
    have hcf : ¬ (".clang-format" : String) = n := by
      intro he
      exact hn (by rw [← he]; decide)
    by_cases h : ("a" : String) = n <;> simp [lookupFile, h, hcf]
  have hothers : ∀ n, n ≠ "a" → n ∉ verify_exclude →
      lookupFile [("a", "x")] n = lookupFile [("a", "y")] n := by
    intro n hn _
    have ha : ¬ ("a" : String) = n := fun he => hn he.symm
    simp [lookupFile, ha]
  have h1 := (c3_verify_identical_and_mismatch [("a", "x"), (".clang-format", "p")]
    [("a", "x"), (".clang-format", "q")]).1 hall
  have h2 := (c3_verify_identical_and_mismatch [("a", "x")] [("a", "y")]).2
    "a" "x" "y" (by decide) (by decide) (by decide) (by decide) hothers
  exact ⟨h1.1, h2.1, h2.2.1⟩

/-- C4: in incremental mode (over a working directory with distinct
filenames, as `os.listdir` yields), every working file ends up in the
repository with its working contents; every repository file whose name
is absent from the working directory keeps its old contents (no
deletion, no rewrite); a file is logged as updated exactly when the
repository copy was missing or differed; and a completed run exits 0. -/
theorem c4_incremental_reconciliation (temp repo : Dir)
    (hnd : (dirNames temp).Nodup) :
    (∀ n c, lookupFile temp n = some c →
      lookupFile (incrementalRun temp repo).1 n = some c)
  ∧ (∀ n, n ∉ dirNames temp →
      lookupFile (incrementalRun temp repo).1 n = lookupFile repo n)
  ∧ (∀ n, n ∈ (incrementalRun temp repo).2 ↔
      ∃ c, lookupFile temp n = some c ∧ lookupFile repo n ≠ some c)
  ∧ incrementalExitCode = 0 := by
  refine ⟨?_, ?_, ?_, rfl⟩
  · intro n c h
    exact incrementalFold_lookup_mem temp (repo, []) hnd h
  · intro n h
    exact incrementalFold_lookup_not_mem temp (repo, []) h
  · intro n
    have h := incrementalFold_log_mem temp (repo, []) (m := n) hnd
    simpa using h

/-- Witness for C4 at concrete directories: the differing file `a` is
copied, the repo-only file `c` is untouched, `a` is logged as updated
and the unchanged shared file `b` is not. -/
theorem c4_incremental_reconciliation_witness :
    lookupFile (incrementalRun [("a", "x"), ("b", "y")]
      [("a", "old"), ("c", "w")]).1 "a" = some "x" ∧
    lookupFile (incrementalRun [("a", "x"), ("b", "y")]
      [("a", "old"), ("c", "w")]).1 "c" = some "w" ∧
    "a" ∈ (incrementalRun [("a", "x"), ("b", "y")] [("a", "old"), ("c", "w")]).2 := by
  have h := c4_incremental_reconciliation [("a", "x"), ("b", "y")]
    [("a", "old"), ("c", "w")] (by decide)
  exact ⟨h.1 "a" "x" (by decide), h.2.1 "c" (by decide),
    (h.2.2.1 "a").mpr ⟨"x", by decide, by decide⟩⟩

/-- C10: incremental mode does not apply the verify exclusion set: a
working file whose name is in the exclusion set (such as
`.clang-format`) is still copied over a missing or differing repository
copy and logged as updated, while the same name never appears in the
verify scan (the exclusion set only restricts verify-mode comparison). -/
theorem c10_incremental_ignores_exclusions (temp repo : Dir)
    (hnd : (dirNames temp).Nodup) (n : String) (hn : n ∈ verify_exclude)
    (c : String) (hc : lookupFile temp n = some c)
    (hne : lookupFile repo n ≠ some c) :
    lookupFile (incrementalRun temp repo).1 n = some c ∧
    n ∈ (incrementalRun temp repo).2 ∧
    n ∉ scanNames temp repo := by
  refine ⟨incrementalFold_lookup_mem temp (repo, []) hnd hc, ?_, ?_⟩
  · have h := incrementalFold_log_mem temp (repo, []) (m := n) hnd
    exact h.mpr (Or.inr ⟨c, hc, hne⟩)
  · intro hmem
    exact (mem_scanNames.mp hmem).2 hn

/-- Witness for C10: a working directory holding only `.clang-format`
still has it copied into an empty repository and logged, while the
verify scan of the same directories never visits it. -/
theorem c10_incremental_ignores_exclusions_witness :
    lookupFile (incrementalRun [(".clang-format", "x")] []).1 ".clang-format" =
      some "x" ∧
    ".clang-format" ∈ (incrementalRun [(".clang-format", "x")] []).2 ∧
    ".clang-format" ∉ scanNames [(".clang-format", "x")] [] := by
  have h := c10_incremental_ignores_exclusions [(".clang-format", "x")] []
    (by decide) ".clang-format" (by decide) "x" (by decide) (by decide)
  exact h

/-- C6: any target filter containing at least one name that is not a
key of the generator table makes `RunGenerators` fail with the error
message built from the list of all unrecognized names of the filter
(every unrecognized name is in that list, and that list holds nothing
else), and the failure is the error return taken before the generation
loop, so no list of generated targets is produced. -/
theorem c6_unknown_target_check (tf : List String)
    (h : ∃ x ∈ tf, x ∉ generatorNames) :
    RunGenerators (some tf) =
      .error (unknownTargetsMessage (unknownTargets (some tf)))
  ∧ (∀ x ∈ tf, x ∉ generatorNames → x ∈ unknownTargets (some tf))
  ∧ (∀ x ∈ unknownTargets (some tf), x ∈ tf ∧ x ∉ generatorNames)
  ∧ (∀ gen, RunGenerators (some tf) ≠ .ok gen) := by
  obtain ⟨x, hx, hxn⟩ := h
  have hxu : x ∈ unknownTargets (some tf) := by
    simp [unknownTargets, List.mem_filter, hx, hxn]
  have hne : ¬ (unknownTargets (some tf)).isEmpty := by
    intro he
    rw [List.isEmpty_iff] at he
    rw [he] at hxu
    cases hxu
  have herr : RunGenerators (some tf) =
      .error (unknownTargetsMessage (unknownTargets (some tf))) := by
    simp [RunGenerators, hne]
  refine ⟨herr, ?_, ?_, ?_⟩
  · intro y hy hyn
    simp [unknownTargets, List.mem_filter, hy, hyn]
  · intro y hy
    simpa [unknownTargets, List.mem_filter] using hy
  · intro gen hcon
    rw [herr] at hcon
    cases hcon

/-- Witness for C6: a filter holding two unknown names and one valid
one fails with the message enumerating both unknown names, and the
second unknown name is indeed listed. -/
theorem c6_unknown_target_check_witness :
    RunGenerators (some ["bogus", "vk_api_version.h", "bogus2"]) =
      .error "ERROR: No generator options for unknown target(s): bogus, bogus2" ∧
    "bogus2" ∈ unknownTargets (some ["bogus", "vk_api_version.h", "bogus2"]) := by
  have h := c6_unknown_target_check ["bogus", "vk_api_version.h", "bogus2"]
    ⟨"bogus", by decide, by decide⟩
  refine ⟨?_, h.2.1 "bogus2" (by decide) (by decide)⟩
  rw [h.1]
  exact congrArg Except.error (by decide)

/-- C7 (code bug): for the unknown target `bogus`, `RunGenerators`
reports status 1, but `main` (line 214) discards that status, so the
direct-mode run falls through to `return 0` and the process exits 0
rather than with any non-zero code. -/
theorem c7_unknown_target_exit_is_zero :
    runGeneratorsStatus (some ["bogus"]) = 1 ∧
    mainDirectExit (some ["bogus"]) = 0 ∧
    mainDirectExit (some ["bogus"]) ≠ 1 := by decide

/-- C8 counterexample: under GitHub Actions in verify mode with a
detected clang-format major version 11 (below 14), the skip path
returns exit code 0, not the claimed code 1. -/
theorem c8_gha_skip_counterexample :
    ghaVerifySkip true true 11 = some 0 ∧ ghaVerifySkip true true 11 ≠ some 1 := by
  decide

/-- C8 (amended): under the recognized CI environment in verify mode, a
stale external formatter version (below 14) makes the process skip the
verify check and exit with code 0, the success code. -/
theorem c8_gha_skip_exits_zero (v : Nat) (h : v < 14) :
    ghaVerifySkip true true v = some 0 := by
  simp [ghaVerifySkip, h]

/-- Witness for the amended C8 at the concrete version 13. -/
theorem c8_gha_skip_exits_zero_witness : ghaVerifySkip true true 13 = some 0 :=
  c8_gha_skip_exits_zero 13 (by decide)

/-- Helper: Python `'vulkan'.split(',')` is the one-element list. -/
theorem commaSplit_vulkan : commaSplit "vulkan" = ["vulkan"] := by decide

/-- C9: for a combinable target generated with a primary API other than
the canonical base `vulkan`, the API scope is `[primary, vulkan]` with
the base appended after the primary, the extension filter for the
target uses exactly that list, and the generation context's merged-API
set equals that scope; for a non-combinable target or when the primary
equals the base, the scope is `[primary]` alone and the merged-API
names are explicitly cleared. -/
theorem c9_api_scope (api : String) (genCombined : Bool) (exts : List Extension) :
    (api ≠ "vulkan" → genCombined = true →
      (generateTarget api genCombined exts).apiList = [api, "vulkan"] ∧
      (generateTarget api genCombined exts).filteredExtensions =
        filterExtensions [api, "vulkan"] exts ∧
      mergedApiSet api (generateTarget api genCombined exts).mergedApiNames =
        [api, "vulkan"])
  ∧ ((api = "vulkan" ∨ genCombined = false) →
      (generateTarget api genCombined exts).apiList = [api] ∧
      (generateTarget api genCombined exts).mergedApiNames = none ∧
      (generateTarget api genCombined exts).filteredExtensions =
        filterExtensions [api] exts) := by
  constructor
  · intro h1 h2
    subst h2
    have hcond : (api != "vulkan" && true) = true := by
      simp [h1]
    refine ⟨?_, ?_, ?_⟩
    · simp [generateTarget, computeApiList, hcond]
    · simp [generateTarget, computeApiList, hcond]
    · simp [generateTarget, computeMergedApiNames, hcond, mergedApiSet,
        commaSplit_vulkan]
  · intro h
    have hcond : (api != "vulkan" && genCombined) = false := by
      rcases h with h | h
      · simp [h]
      · simp [h]
    refine ⟨?_, ?_, ?_⟩
    · simp [generateTarget, computeApiList, hcond]
    · simp [generateTarget, computeMergedApiNames, hcond]
    · simp [generateTarget, computeApiList, hcond]

/-- Witness for C9: with primary API `vulkansc` and a combinable
target, the scope is `["vulkansc", "vulkan"]` and the merged-API set
equals it; with primary API `vulkan`, the scope is `["vulkan"]` and the
merged names are cleared. -/
theorem c9_api_scope_witness :
    (generateTarget "vulkansc" true [⟨"X", some "vulkan"⟩]).apiList =
      ["vulkansc", "vulkan"] ∧
    mergedApiSet "vulkansc"
      (generateTarget "vulkansc" true [⟨"X", some "vulkan"⟩]).mergedApiNames =
      ["vulkansc", "vulkan"] ∧
    (generateTarget "vulkan" true []).apiList = ["vulkan"] ∧
    (generateTarget "vulkan" true []).mergedApiNames = none := by
  have h1 := (c9_api_scope "vulkansc" true [⟨"X", some "vulkan"⟩]).1 (by decide) rfl
  have h2 := (c9_api_scope "vulkan" true []).2 (Or.inl rfl)
  exact ⟨h1.1, h1.2.2, h2.1, h2.2.1⟩

end GenerateSource
